import Mathlib

/-!
Verification of the usb-to-gdrive-audio-sync pipeline.

This file shallowly embeds the parts of the repository that the checked
properties are about:

* `SyncDatabase` — the SQLite ledger in src/utils/database.py
  (sessions, file sync history, file tracking, differential sync);
* `AudioProcessor` — the silence-trimming segment selection in
  src/audio_processor.py (process_audio_file, steps 4-5);
* `LocalStorage` — the raw/processed/archive staging lifecycle in
  src/local_storage_manager.py;
* `GoogleDriveSync` — the upload scheduler in src/gdrive_sync.py
  (upload_file with its retry handling, upload_files_parallel).

Python/SQLite dynamic values are modelled by `Value`; tables are lists of
typed rows; wall-clock times are abstract `Nat` instants supplied by the
caller; filesystem and network effects are explicit parameters.
-/

set_option autoImplicit false

namespace SyncDatabase

/-- A dynamically typed SQLite value (sessions' updatable columns can be
written with arbitrary values through `update_session`'s kwargs). -/
inductive Value where
  | vNull : Value
  | vStr : String → Value
  | vInt : Int → Value
  deriving DecidableEq, Repr

/-- One row of the `sync_sessions` table.  `session_id`, `usb_path`,
`start_time` and `created_at` are written once by `create_session` and are
statically typed; the columns reachable from `update_session` carry
dynamically typed values. -/
structure Session where
  session_id : String
  usb_path : String
  start_time : Nat
  end_time : Value
  status : Value
  total_files : Value
  synced_files : Value
  failed_files : Value
  skipped_files : Value
  total_size_bytes : Value
  synced_size_bytes : Value
  error_message : Value
  created_at : Nat
  deriving DecidableEq, Repr

/-- One row of the append-only `file_sync_history` table. -/
structure HistRow where
  session_id : String
  file_path : String
  file_name : String
  file_size : Nat
  file_hash : String
  gdrive_file_id : Option String
  gdrive_folder_id : Option String
  sync_status : String
  sync_time : Nat
  error_message : Option String
  retry_count : Nat
  deriving DecidableEq, Repr

/-- One row of the `file_tracking` table (`file_path` is UNIQUE). -/
structure TrackRow where
  file_path : String
  file_name : String
  file_size : Nat
  file_hash : String
  last_modified : Nat
  last_synced : Nat
  gdrive_file_id : Option String
  sync_count : Nat
  updated_at : Nat
  deriving DecidableEq, Repr

/-- The `file_info` dictionary passed to `record_file_sync`. -/
structure FileInfo where
  file_path : String
  file_name : String
  file_size : Nat
  file_hash : String
  gdrive_file_id : Option String
  gdrive_folder_id : Option String
  sync_status : String
  error_message : Option String
  retry_count : Nat
  last_modified : Option Nat
  deriving DecidableEq, Repr

/-- One scanned-file dictionary handed to `get_files_to_sync`. -/
structure Candidate where
  path : String
  hash : Option String
  name : String
  size : Nat
  force_sync : Bool
  deriving DecidableEq, Repr

/-- The state of the SQLite database (the three tables the claims use). -/
structure DB where
  sessions : List Session
  history : List HistRow
  tracking : List TrackRow
  deriving DecidableEq, Repr

/-- The `allowed_fields` list in `SyncDatabase.update_session`. -/
def allowed_fields : List String :=
  ["end_time", "status", "total_files", "synced_files",
   "failed_files", "skipped_files", "total_size_bytes",
   "synced_size_bytes", "error_message"]

/-- Effect of one `field = ?` assignment of the generated UPDATE statement
on one session row. -/
def applyField (s : Session) (kv : String × Value) : Session :=
  if kv.1 = "end_time" then { s with end_time := kv.2 }
  else if kv.1 = "status" then { s with status := kv.2 }
  else if kv.1 = "total_files" then { s with total_files := kv.2 }
  else if kv.1 = "synced_files" then { s with synced_files := kv.2 }
  else if kv.1 = "failed_files" then { s with failed_files := kv.2 }
  else if kv.1 = "skipped_files" then { s with skipped_files := kv.2 }
  else if kv.1 = "total_size_bytes" then { s with total_size_bytes := kv.2 }
  else if kv.1 = "synced_size_bytes" then { s with synced_size_bytes := kv.2 }
  else if kv.1 = "error_message" then { s with error_message := kv.2 }
  else s

/-- `SyncDatabase.update_session`: keeps the kwargs whose name is in
`allowed_fields`, returns unchanged if none survives, otherwise runs
`UPDATE sync_sessions SET ... WHERE session_id = ?`. -/
def update_session (db : DB) (sid : String) (kwargs : List (String × Value)) : DB :=
  let updates := kwargs.filter (fun kv => allowed_fields.contains kv.1)
  if updates.isEmpty then db
  else { db with
          sessions := db.sessions.map (fun s =>
            if s.session_id = sid then updates.foldl applyField s else s) }

/-- `SyncDatabase.complete_session`: unconditionally writes the terminal
status, `end_time = now` and the error message through `update_session`. -/
def complete_session (db : DB) (sid : String) (success : Bool)
    (error : Option String) (now : Nat) : DB :=
  let status := if success then "completed" else "failed"
  update_session db sid
    [("end_time", Value.vInt now),
     ("status", Value.vStr status),
     ("error_message", match error with
       | some e => Value.vStr e
       | none => Value.vNull)]

/-- `SyncDatabase._update_file_tracking`: `INSERT ... ON CONFLICT(file_path)
DO UPDATE` upsert into `file_tracking` (the conflict row is the unique row
with the same `file_path`). -/
def update_file_tracking (tracking : List TrackRow) (fi : FileInfo) (now : Nat) :
    List TrackRow :=
  if tracking.any (fun t => t.file_path = fi.file_path) then
    tracking.map (fun t =>
      if t.file_path = fi.file_path then
        { t with
          file_size := fi.file_size
          file_hash := fi.file_hash
          last_modified := fi.last_modified.getD now
          last_synced := now
          gdrive_file_id := fi.gdrive_file_id
          sync_count := t.sync_count + 1
          updated_at := now }
      else t)
  else
    tracking ++ [{ file_path := fi.file_path
                   file_name := fi.file_name
                   file_size := fi.file_size
                   file_hash := fi.file_hash
                   last_modified := fi.last_modified.getD now
                   last_synced := now
                   gdrive_file_id := fi.gdrive_file_id
                   sync_count := 1
                   updated_at := now }]

/-- `SyncDatabase.record_file_sync`: appends one `file_sync_history` row
and, when the status is success, upserts `file_tracking`. -/
def record_file_sync (db : DB) (sid : String) (fi : FileInfo) (now : Nat) : DB :=
  let row : HistRow :=
    { session_id := sid
      file_path := fi.file_path
      file_name := fi.file_name
      file_size := fi.file_size
      file_hash := fi.file_hash
      gdrive_file_id := fi.gdrive_file_id
      gdrive_folder_id := fi.gdrive_folder_id
      sync_status := fi.sync_status
      sync_time := now
      error_message := fi.error_message
      retry_count := fi.retry_count }
  let db := { db with history := db.history ++ [row] }
  if fi.sync_status = "success" then
    { db with tracking := update_file_tracking db.tracking fi now }
  else db

/-- Row filter of `SyncDatabase.check_file_exists`: matching hash, status
success, and — only when a non-empty folder id is passed (Python's truthiness
test `if gdrive_folder_id:`) — matching folder id. -/
def historyMatch (hash : String) (folder : Option String) (r : HistRow) : Bool :=
  r.file_hash = hash && r.sync_status = "success" &&
    (match folder with
     | none => true
     | some f => if f = "" then true else r.gdrive_folder_id = some f)

/-- One step of scanning for the row with maximal `sync_time`. -/
def latestStep (acc : Option HistRow) (r : HistRow) : Option HistRow :=
  match acc with
  | none => some r
  | some a => if a.sync_time < r.sync_time then some r else acc

/-- `ORDER BY sync_time DESC LIMIT 1`: first row carrying the maximal
sync_time. -/
def latestRow (rows : List HistRow) : Option HistRow :=
  rows.foldl latestStep none

/-- `SyncDatabase.check_file_exists`: most recent successful history row
with this hash (and folder scope, when one is given). -/
def check_file_exists (db : DB) (hash : String) (folder : Option String) :
    Option HistRow :=
  latestRow (db.history.filter (historyMatch hash folder))

/-- Per-candidate branch of the loop in `SyncDatabase.get_files_to_sync`:
no hash → selected; no `(file_path, file_hash)` row in `file_tracking` →
selected; otherwise selected only under `force_sync`. -/
def needSync (db : DB) (c : Candidate) : Bool :=
  match c.hash with
  | none => true
  | some h =>
    if !(db.tracking.any (fun t => t.file_path = c.path && t.file_hash = h)) then
      true
    else c.force_sync

/-- `SyncDatabase.get_files_to_sync` (its `usb_path` argument is unused in
the source). -/
def get_files_to_sync (db : DB) (usb : String) (files : List Candidate) :
    List Candidate :=
  files.filter (needSync db)

/-- Modelled from the spec (for comparison with `needSync`): a candidate is
selected iff no tracking entry exists for its path, or the tracked entry's
fingerprint differs, or the candidate carries a force flag; a candidate
lacking a computed fingerprint is always selected. -/
def needSyncSpec (db : DB) (c : Candidate) : Prop :=
  c.hash = none ∨
    (∀ t ∈ db.tracking, t.file_path ≠ c.path) ∨
    (∃ t ∈ db.tracking, t.file_path = c.path ∧ some t.file_hash ≠ c.hash) ∨
    c.force_sync = true

/-- The four write-once columns of a session row (never listed in
`allowed_fields`). -/
def sessionFrame (s : Session) : String × String × Nat × Nat :=
  (s.session_id, s.usb_path, s.start_time, s.created_at)

end SyncDatabase

namespace AudioProcessor

/-- The margin added around every detected non-silent chunk in
`AudioProcessor.process_audio_file` step 5 (`margin = 100  # ms`,
a fixed local constant in the source). -/
def margin : Nat := 100

/-- Expansion of one detected chunk `[start_ms, end_ms)` performed in the
concatenation loop: `start_ms = max(0, start_ms - margin)` and
`end_ms = min(len(audio), end_ms + margin)` (truncated subtraction on `Nat`
is exactly the clamp at 0). -/
def expandChunk (len : Nat) (c : Nat × Nat) : Nat × Nat :=
  (c.1 - margin, min len (c.2 + margin))

/-- The millisecond positions of the original timeline covered by the slice
`audio[start_ms:end_ms]`. -/
def chunkSlice (c : Nat × Nat) : List Nat :=
  List.range' c.1 (c.2 - c.1)

/-- The processed timeline built by `processed_audio += audio[start_ms:end_ms]`
over all detected chunks, described by which source-timeline position each
output millisecond came from.  The loop performs no merging of expanded
chunks. -/
def processedTimeline (len : Nat) (chunks : List (Nat × Nat)) : List Nat :=
  (chunks.map (expandChunk len)).flatMap chunkSlice

end AudioProcessor

namespace LocalStorage

/-- A path relative to one of the storage roots (`raw`, `processed`,
`archive`): directory components, file stem, and extension. -/
structure RelPath where
  dirs : List String
  stem : String
  ext : String
  deriving DecidableEq, Repr

/-- `relative_path.with_suffix(".mp3")` in `move_to_processed`. -/
def withSuffixMp3 (p : RelPath) : RelPath :=
  { p with ext := ".mp3" }

/-- Character-wise lowercasing of a string, modelling Python's
`str.lower()` on a path suffix (equivalent to `String.toLower`, written via
the character list so that it evaluates by reduction). -/
def lowerStr (s : String) : String :=
  String.mk (s.data.map Char.toLower)

/-- The audio suffixes accepted by `get_unprocessed_files`. -/
def audio_extensions : List String :=
  [".mp3", ".wav", ".m4a", ".aac", ".flac", ".ogg"]

/-- File contents as a byte list. -/
abbrev Content := List Nat

/-- One directory tree as a finite map from relative paths to contents. -/
abbrev Tree := List (RelPath × Content)

/-- Content stored at a path of a tree. -/
def lookupFile : Tree → RelPath → Option Content
  | [], _ => none
  | e :: t, p => if e.1 = p then some e.2 else lookupFile t p

/-- Create or overwrite the file at a path (the effect of a completed
`shutil.move`/buffered copy onto that destination path). -/
def setFile : Tree → RelPath → Content → Tree
  | [], p, c => [(p, c)]
  | e :: t, p, c => if e.1 = p then (p, c) :: t else e :: setFile t p c

/-- Delete the file at a path (`dest_file.unlink()`, or the source side of a
completed `shutil.move`). -/
def removeFile : Tree → RelPath → Tree
  | [], _ => []
  | e :: t, p => if e.1 = p then removeFile t p else e :: removeFile t p

/-- `LocalStorageManager.get_unprocessed_files`: files under `raw` whose
suffix (lowercased) is an audio suffix and for which
`processed_dir / relative_path` does not exist — same relative path,
including the extension. -/
def get_unprocessed_files (raw processed : Tree) : List RelPath :=
  (raw.filter (fun e =>
    audio_extensions.contains (lowerStr e.1.ext) &&
      (lookupFile processed e.1).isNone)).map Prod.fst

/-- Modelled from the spec (for comparison with `get_unprocessed_files`):
`listUnprocessed()` returns every file under `raw` lacking a corresponding
entry under `processed` at the same relative path. -/
def listUnprocessedSpec (raw processed : Tree) : List RelPath :=
  (raw.filter (fun e => (lookupFile processed e.1).isNone)).map Prod.fst

/-- The `raw`/`processed`/`archive` trees of `LocalStorageManager`. -/
structure StorageState where
  raw : Tree
  processed : Tree
  archive : Tree
  deriving DecidableEq, Repr

/-- The filesystem moves a `move_to_processed` implementation can perform,
used to state in which order the source performs them. -/
inductive MoveOp where
  | moveProcessedIntoPlace : MoveOp
  | moveRawToArchive : MoveOp
  | stageProcessedTemp : MoveOp
  | renameProcessedIntoPlace : MoveOp
  deriving DecidableEq, Repr

/-- The order of the two `shutil.move` calls in
`LocalStorageManager.move_to_processed`: first the processed file into its
final place, then the raw original into the archive. -/
def move_to_processed_ops : List MoveOp :=
  [MoveOp.moveProcessedIntoPlace, MoveOp.moveRawToArchive]

/-- Modelled from the spec (for comparison with `move_to_processed_ops`):
the implementation performs the archive move first, or uses the two-phase
commit (stage processed under a temp name, move raw to archive, rename
processed into place). -/
def archiveFirstOrTwoPhase (ops : List MoveOp) : Prop :=
  ops.head? = some MoveOp.moveRawToArchive ∨
    ops = [MoveOp.stageProcessedTemp, MoveOp.moveRawToArchive,
           MoveOp.renameProcessedIntoPlace]

/-- `LocalStorageManager.move_to_processed` on the staging state.  `tmp` is
the content of the transcoder output sitting at `processed_file` (outside
the three trees).  `okOps` says how many of the two moves complete before
an exception is raised (2 or more: no failure); the `except` clause turns
any failure into a `False` return. -/
def move_to_processed (st : StorageState) (rawRel : RelPath) (tmp : Content)
    (okOps : Nat) : StorageState × Bool :=
  if okOps = 0 then (st, false)
  else
    let st1 := { st with
                  processed := setFile st.processed (withSuffixMp3 rawRel) tmp }
    if okOps = 1 then (st1, false)
    else
      match lookupFile st1.raw rawRel with
      | none => (st1, false)
      | some c =>
        ({ st1 with
            raw := removeFile st1.raw rawRel
            archive := setFile st1.archive rawRel c }, true)

/-- The per-run I/O environment of `copy_from_usb`: the `verify_copy`
configuration flag, the content fingerprint (`_calculate_file_hash`, MD5),
and what `_copy_with_progress` actually lands on disk for a given intended
content (modelling possible corruption during the buffered copy). -/
structure CopyEnv where
  verify_cfg : Bool
  hash : Content → Nat
  write : RelPath → Content → Content

/-- Body of the per-file loop of `LocalStorageManager.copy_from_usb`:
skip (but report as copied) when the destination exists with identical byte
size; otherwise copy, and when verification is configured compare the
fingerprints, deleting the destination and dropping the file on mismatch. -/
def copyOne (env : CopyEnv) (dest : Tree) (src : RelPath × Content) :
    Tree × Option RelPath :=
  let sizeSkip : Bool :=
    match lookupFile dest src.1 with
    | some d => decide (d.length = src.2.length)
    | none => false
  if sizeSkip then (dest, some src.1)
  else
    let actual := env.write src.1 src.2
    let dest1 := setFile dest src.1 actual
    if env.verify_cfg then
      if env.hash src.2 = env.hash actual then (dest1, some src.1)
      else (removeFile dest1 src.1, none)
    else (dest1, some src.1)

/-- The contribution of one loop iteration to the `copied_files` list. -/
def copiedEntry : Option RelPath → List RelPath
  | some p => [p]
  | none => []

/-- `LocalStorageManager.copy_from_usb` over the discovered source files
(relative path and content), returning the final destination tree and the
`copied_files` result list. -/
def copy_from_usb (env : CopyEnv) (dest : Tree) :
    List (RelPath × Content) → Tree × List RelPath
  | [] => (dest, [])
  | s :: ss =>
    let step := copyOne env dest s
    let rest := copy_from_usb env step.1 ss
    (rest.1, copiedEntry step.2 ++ rest.2)

end LocalStorage

namespace GoogleDriveSync

/-- One local file as `upload_file`/`upload_files_parallel` see it: its path
string, basename, byte size, content hash (`_calculate_file_hash`),
modification time, and whether `path.exists()` held when the batch was
prepared. -/
structure DFile where
  path : String
  name : String
  size : Nat
  hash : String
  mtime : Nat
  onDisk : Bool
  deriving DecidableEq, Repr

/-- The per-run environment of the upload scheduler: the `retry_attempts`
and `max_file_size_mb` configuration, the Drive-side duplicate query of
`check_file_exists` (an external API, by name and hash), and the result of
the n-th transfer attempt for a path (`some id` when the chunked upload
completes, `none` when it raises). -/
structure UploadEnv where
  retry_attempts : Nat
  max_file_size : Nat
  driveDup : String → String → Bool
  uploadResult : String → Nat → Option String

/-- `GoogleDriveSync.check_file_exists` with the database enabled and a
hash available: a successful ledger record for this hash scoped to the
folder counts as existing, otherwise the Drive API is queried. -/
def drive_check_file_exists (env : UploadEnv) (db : SyncDatabase.DB)
    (name parent hash : String) : Bool :=
  (SyncDatabase.check_file_exists db hash (some parent)).isSome ||
    env.driveDup name hash

/-- `GoogleDriveSync._record_sync_result`: writes one ledger row through
`SyncDatabase.record_file_sync` (the source never passes `retry_count`, so
it is always recorded as 0). -/
def record_sync_result (db : SyncDatabase.DB) (sid : String) (f : DFile)
    (fileId : Option String) (folder : String) (status : String)
    (error : Option String) (now : Nat) : SyncDatabase.DB :=
  SyncDatabase.record_file_sync db sid
    { file_path := f.path
      file_name := f.name
      file_size := f.size
      file_hash := f.hash
      gdrive_file_id := fileId
      gdrive_folder_id := some folder
      sync_status := status
      error_message := error
      retry_count := 0
      last_modified := some f.mtime } now

/-- `GoogleDriveSync.upload_file`.  `attempt` numbers the transfer attempts
(fed to `env.uploadResult`); `fuel` is the remaining recursion budget of the
interpreter (the source retries by calling itself recursively from the
`except` handler).  When a transfer attempt raises, the attempt is first
recorded as failed, then the retry loop `for attempt in range(1,
retry_attempts)` runs: its first iteration `return`s the recursive call,
which never raises while recursion depth remains (it catches its own
exceptions and returns `None` instead), so later iterations are reachable
only once the recursion limit is exhausted, where every deeper call raises
at once and the loop falls through to `return None`. -/
def upload_file (env : UploadEnv) (sid : String) (f : DFile) (parent : String)
    (now : Nat) : Nat → SyncDatabase.DB → Nat → SyncDatabase.DB × Option String
  | fuel, db, attempt =>
    if f.size > env.max_file_size then
      (record_sync_result db sid f none parent "failed"
        (some "File size exceeds limit") now, none)
    else if drive_check_file_exists env db f.name parent f.hash then
      (record_sync_result db sid f none parent "skipped"
        (some "File already exists") now, none)
    else
      match env.uploadResult f.path attempt with
      | some fileId =>
        (record_sync_result db sid f (some fileId) parent "success" none now,
         some fileId)
      | none =>
        let db1 := record_sync_result db sid f none parent "failed"
          (some "upload error") now
        match fuel with
        | 0 => (db1, none)
        | fuel + 1 =>
          if env.retry_attempts ≤ 1 then (db1, none)
          else upload_file env sid f parent now fuel db1 (attempt + 1)

/-- The scanned-file dictionary `upload_files_parallel` builds for the
differential-sync check (`force_sync` is never set there). -/
def toCandidate (f : DFile) : SyncDatabase.Candidate :=
  { path := f.path
    hash := some f.hash
    name := f.name
    size := f.size
    force_sync := false }

/-- The worker-pool phase of `upload_files_parallel`: every submitted task
runs `upload_file`, and `results[path] = file_id` is recorded only when a
file id came back. -/
def runUploads (env : UploadEnv) (sid parent : String) (now fuel : Nat) :
    SyncDatabase.DB → List DFile → SyncDatabase.DB × List (String × String)
  | db, [] => (db, [])
  | db, f :: fs =>
    let r := upload_file env sid f parent now fuel db 0
    let rest := runUploads env sid parent now fuel r.1 fs
    (rest.1, (match r.2 with
              | some fileId => [(f.path, fileId)]
              | none => []) ++ rest.2)

/-- Existing files whose path survived the differential-sync selection —
the `file_paths` actually submitted to the executor. -/
def selectedFiles (db : SyncDatabase.DB) (files : List DFile) : List DFile :=
  let file_infos := files.filter (fun f => f.onDisk)
  let to_sync := SyncDatabase.get_files_to_sync db ""
    (file_infos.map toCandidate)
  file_infos.filter (fun f => (to_sync.map (fun c => c.path)).contains f.path)

/-- `GoogleDriveSync.upload_files_parallel` with the database enabled:
filters to existing files, hashes them, drops the ones the tracking table
marks unchanged, then uploads the survivors and returns the
path-to-file-id result map. -/
def upload_files_parallel (env : UploadEnv) (db : SyncDatabase.DB)
    (sid : String) (files : List DFile) (parent : String) (fuel now : Nat) :
    SyncDatabase.DB × List (String × String) :=
  runUploads env sid parent now fuel db (selectedFiles db files)

end GoogleDriveSync

/-!
Theorems.  Each claim C1-C10 has exactly one main theorem; corrected claims
additionally have a closed counterexample refuting the original wording, and
theorems with hypotheses have a closed witness.
-/

namespace SyncDatabase

theorem applyField_frame (s : Session) (kv : String × Value) :
    sessionFrame (applyField s kv) = sessionFrame s := by
  unfold applyField
  repeat' split
  all_goals rfl

theorem foldl_applyField_frame (kvs : List (String × Value)) (s : Session) :
    sessionFrame (kvs.foldl applyField s) = sessionFrame s := by
  induction kvs generalizing s with
  | nil => rfl
  | cons kv kvs ih => rw [List.foldl_cons, ih, applyField_frame]

/-- C10: `update_session` can modify only the allow-listed session fields:
the `session_id`, `usb_path`, `start_time` and `created_at` of every session
survive any call unchanged, and kwargs whose name is not in `allowed_fields`
are silently ignored (the call behaves exactly as if they had been filtered
out beforehand). -/
theorem filter_self_filter {α : Type} (p : α → Bool) (l : List α) :
    (l.filter p).filter p = l.filter p := by
  induction l with
  | nil => rfl
  | cons a l ih =>
    by_cases h : p a <;> simp [List.filter_cons, h, ih]

theorem update_session_frame (db : DB) (sid : String)
    (kwargs : List (String × Value)) :
    ((update_session db sid kwargs).sessions.map sessionFrame
        = db.sessions.map sessionFrame) ∧
      update_session db sid kwargs =
        update_session db sid
          (kwargs.filter (fun kv => allowed_fields.contains kv.1)) := by
  constructor
  · simp only [update_session]
    split
    · rfl
    · rw [List.map_map]
      apply List.map_congr_left
      intro s _
      dsimp only [Function.comp]
      split
      · exact foldl_applyField_frame _ s
      · rfl
  · unfold update_session
    rw [filter_self_filter]

end SyncDatabase

namespace SyncDatabase

/-- C6 counterexample: a session already terminal (status `completed`,
`end_time` 7) is not protected against a further `complete_session` call —
the call is applied, flipping the status to `failed` and moving `end_time`
to 99, so the claimed once-only transition discipline does not hold. -/
theorem complete_session_overwrites_terminal :
    (complete_session
        { sessions := [{ session_id := "s1", usb_path := "/usb", start_time := 5,
                         end_time := Value.vInt 7, status := Value.vStr "completed",
                         total_files := Value.vInt 3, synced_files := Value.vInt 3,
                         failed_files := Value.vInt 0, skipped_files := Value.vInt 0,
                         total_size_bytes := Value.vInt 10,
                         synced_size_bytes := Value.vInt 10,
                         error_message := Value.vNull, created_at := 1 }],
          history := [], tracking := [] }
        "s1" false (some "second call") 99).sessions.map
      (fun s => (s.status, s.end_time)) =
      [(Value.vStr "failed", Value.vInt 99)] := rfl

/-- C6 (amended): `complete_session` performs no terminal-state check: on
every call it unconditionally sets the matching session's `status` to
`completed`/`failed`, `end_time` to the current time and `error_message`
to the given error, leaving other sessions untouched — so a repeated call
on an already-terminal session overwrites its status and end time. -/
theorem complete_session_unconditional (db : DB) (sid : String) (success : Bool)
    (error : Option String) (now : Nat) :
    (complete_session db sid success error now).sessions =
      db.sessions.map (fun s =>
        if s.session_id = sid then
          { s with
            end_time := Value.vInt now
            status := Value.vStr (if success then "completed" else "failed")
            error_message := match error with
              | some e => Value.vStr e
              | none => Value.vNull }
        else s) := by
  rfl

end SyncDatabase

namespace LocalStorage

theorem lookup_setFile_self (t : Tree) (p : RelPath) (c : Content) :
    lookupFile (setFile t p c) p = some c := by
  induction t with
  | nil => simp [setFile, lookupFile]
  | cons e t ih =>
    by_cases h : e.1 = p <;> simp [setFile, lookupFile, h, ih]

theorem lookup_setFile_ne (t : Tree) (p q : RelPath) (c : Content)
    (h : q ≠ p) : lookupFile (setFile t p c) q = lookupFile t q := by
  induction t with
  | nil => simp [setFile, lookupFile, Ne.symm h]
  | cons e t ih =>
    by_cases he : e.1 = p
    · simp [setFile, lookupFile, he, Ne.symm h]
    · simp [setFile, lookupFile, he, ih]

theorem mem_removeFile {e : RelPath × Content} {t : Tree} {p : RelPath}
    (h : e ∈ removeFile t p) : e ∈ t ∧ e.1 ≠ p := by
  induction t with
  | nil => simp [removeFile] at h
  | cons f t ih =>
    by_cases hf : f.1 = p
    · simp only [removeFile, if_pos hf] at h
      exact ⟨List.mem_cons_of_mem f (ih h).1, (ih h).2⟩
    · simp only [removeFile, if_neg hf, List.mem_cons] at h
      rcases h with rfl | h
      · exact ⟨List.mem_cons_self _ _, hf⟩
      · exact ⟨List.mem_cons_of_mem f (ih h).1, (ih h).2⟩

/-- C8 counterexample: `move_to_processed` neither performs the archive move
first nor stages through a temp name: its first filesystem move is the one
that puts the processed file into its final place, with the raw-to-archive
move second. -/
theorem move_to_processed_not_archive_first :
    ¬ archiveFirstOrTwoPhase move_to_processed_ops := by
  intro h
  rcases h with h | h <;> simp [move_to_processed_ops] at h

/-- C8 (amended): although the source moves the processed file into place
first and archives the raw original second, the raw original is never lost:
whatever prefix of the two moves completes before a failure, its content is
still found under the raw tree or under the archive tree. -/
theorem move_to_processed_raw_not_lost (st : StorageState) (rawRel : RelPath)
    (tmp c : Content) (okOps : Nat)
    (h : lookupFile st.raw rawRel = some c) :
    lookupFile ((move_to_processed st rawRel tmp okOps).1).raw rawRel = some c ∨
      lookupFile ((move_to_processed st rawRel tmp okOps).1).archive rawRel
        = some c := by
  unfold move_to_processed
  split
  · exact Or.inl h
  · split
    · exact Or.inl h
    · dsimp only
      rw [h]
      exact Or.inr (lookup_setFile_self _ _ _)

/-- C8 witness: the preserved-raw theorem applied to a one-file raw tree
with the archive move failing after the processed move succeeded. -/
theorem move_to_processed_raw_not_lost_witness :
    lookupFile (StorageState.mk [(⟨["d"], "r", ".wav"⟩, [7])] [] []).raw
        ⟨["d"], "r", ".wav"⟩ = some [7] ∧
      (lookupFile ((move_to_processed
            (StorageState.mk [(⟨["d"], "r", ".wav"⟩, [7])] [] [])
            ⟨["d"], "r", ".wav"⟩ [9] 1).1).raw ⟨["d"], "r", ".wav"⟩ = some [7] ∨
        lookupFile ((move_to_processed
            (StorageState.mk [(⟨["d"], "r", ".wav"⟩, [7])] [] [])
            ⟨["d"], "r", ".wav"⟩ [9] 1).1).archive ⟨["d"], "r", ".wav"⟩
          = some [7]) :=
  ⟨rfl, move_to_processed_raw_not_lost _ _ _ _ _ rfl⟩

end LocalStorage

namespace LocalStorage

/-- C9 counterexample: two concrete refutations of the claimed description
of `get_unprocessed_files`.  First, a non-audio file under `raw` with no
processed counterpart is not returned (the source filters by audio suffix),
although the claim says every raw file lacking a counterpart is.  Second,
after `move_to_processed` placed the counterpart of `d/r.wav` (stored as
`d/r.mp3` — the suffix is rewritten) but failed the archive move, the raw
file is still listed, although the claim says a raw file whose processed
counterpart was placed by `move_to_processed` is not. -/
theorem get_unprocessed_files_counterexample :
    (get_unprocessed_files [(⟨[], "notes", ".txt"⟩, [0])] [] = [] ∧
      listUnprocessedSpec [(⟨[], "notes", ".txt"⟩, [0])] []
        = [⟨[], "notes", ".txt"⟩]) ∧
      get_unprocessed_files
          ((move_to_processed (StorageState.mk [(⟨["d"], "r", ".wav"⟩, [7])] [] [])
              ⟨["d"], "r", ".wav"⟩ [9] 1).1).raw
          ((move_to_processed (StorageState.mk [(⟨["d"], "r", ".wav"⟩, [7])] [] [])
              ⟨["d"], "r", ".wav"⟩ [9] 1).1).processed
        = [⟨["d"], "r", ".wav"⟩] := by
  refine ⟨⟨?_, ?_⟩, ?_⟩ <;> decide

/-- C9 (amended): `get_unprocessed_files` returns exactly the raw files
with an audio suffix whose relative path — extension included — is absent
from the processed tree; and after a fully successful `move_to_processed`
the promoted raw path is no longer listed (because the raw file left the
raw tree, not because its suffix-rewritten counterpart blocks it). -/
theorem get_unprocessed_files_amended
    (raw processed : Tree) (p : RelPath)
    (st : StorageState) (rawRel : RelPath) (tmp c : Content) (okOps : Nat)
    (hraw : lookupFile st.raw rawRel = some c) (hok : 2 ≤ okOps) :
    (p ∈ get_unprocessed_files raw processed ↔
      (∃ d, (p, d) ∈ raw) ∧ audio_extensions.contains (lowerStr p.ext) = true ∧
        lookupFile processed p = none) ∧
      rawRel ∉ get_unprocessed_files
          ((move_to_processed st rawRel tmp okOps).1).raw
          ((move_to_processed st rawRel tmp okOps).1).processed := by
  constructor
  · simp only [get_unprocessed_files, List.mem_map, List.mem_filter]
    constructor
    · rintro ⟨e, ⟨hmem, hpred⟩, rfl⟩
      rw [Bool.and_eq_true] at hpred
      exact ⟨⟨e.2, hmem⟩, hpred.1, by simpa using hpred.2⟩
    · rintro ⟨⟨d, hmem⟩, hext, hnone⟩
      refine ⟨(p, d), ⟨hmem, ?_⟩, rfl⟩
      rw [Bool.and_eq_true, Option.isNone_iff_eq_none]
      exact ⟨hext, hnone⟩
  · have h0 : ¬ okOps = 0 := by omega
    have h1 : ¬ okOps = 1 := by omega
    simp only [move_to_processed, if_neg h0, if_neg h1]
    rw [hraw]
    intro hmem
    rcases List.mem_map.mp hmem with ⟨e, hef, he1⟩
    exact (mem_removeFile (List.mem_filter.mp hef).1).2 he1

/-- C9 witness: the amended theorem applied to a one-file raw tree and a
fully successful promotion of that file. -/
theorem get_unprocessed_files_amended_witness :
    lookupFile (StorageState.mk [(⟨["d"], "r", ".wav"⟩, [7])] [] []).raw
        ⟨["d"], "r", ".wav"⟩ = some [7] ∧ 2 ≤ 2 ∧
      ((⟨["d"], "r", ".wav"⟩ : RelPath) ∈
          get_unprocessed_files [(⟨["d"], "r", ".wav"⟩, [7])] [] ↔
        (∃ d, ((⟨["d"], "r", ".wav"⟩ : RelPath), d)
            ∈ ([(⟨["d"], "r", ".wav"⟩, [7])] : Tree)) ∧
          audio_extensions.contains (lowerStr (RelPath.ext ⟨["d"], "r", ".wav"⟩))
            = true ∧
          lookupFile [] ⟨["d"], "r", ".wav"⟩ = none) ∧
      (⟨["d"], "r", ".wav"⟩ : RelPath) ∉
        get_unprocessed_files
          ((move_to_processed (StorageState.mk [(⟨["d"], "r", ".wav"⟩, [7])] [] [])
              ⟨["d"], "r", ".wav"⟩ [9] 2).1).raw
          ((move_to_processed (StorageState.mk [(⟨["d"], "r", ".wav"⟩, [7])] [] [])
              ⟨["d"], "r", ".wav"⟩ [9] 2).1).processed :=
  ⟨rfl, by omega,
    (get_unprocessed_files_amended [(⟨["d"], "r", ".wav"⟩, [7])] []
        ⟨["d"], "r", ".wav"⟩ (StorageState.mk [(⟨["d"], "r", ".wav"⟩, [7])] [] [])
        ⟨["d"], "r", ".wav"⟩ [9] [7] 2 rfl (by omega)).1,
    (get_unprocessed_files_amended [(⟨["d"], "r", ".wav"⟩, [7])] []
        ⟨["d"], "r", ".wav"⟩ (StorageState.mk [(⟨["d"], "r", ".wav"⟩, [7])] [] [])
        ⟨["d"], "r", ".wav"⟩ [9] [7] 2 rfl (by omega)).2⟩

end LocalStorage

namespace AudioProcessor

set_option maxRecDepth 8192 in
/-- C1 counterexample: for the non-silent chunks `[100,200)` and `[210,300)`
of a 1000 ms timeline, the margin expansion of `process_audio_file` (fixed
100 ms in the source) yields the overlapping spans `[0,300)` and `[110,400)`,
and the concatenation loop copies both without merging: source position 150
(like every position of the overlap) appears twice in the output, so
overlapping expanded segments are duplicated, not merged into one span. -/
theorem processedTimeline_duplicates :
    (processedTimeline 1000 [(100, 200), (210, 300)]).count 150 = 2 := by
  decide

theorem chunkSlice_nodup (c : Nat × Nat) : (chunkSlice c).Nodup :=
  List.nodup_range' _ _

theorem mem_chunkSlice {x : Nat} {c : Nat × Nat} (h : x ∈ chunkSlice c) :
    c.1 ≤ x ∧ x < c.2 := by
  rw [chunkSlice, List.mem_range'_1] at h
  omega

theorem nodup_flatMap_of_pairwise :
    ∀ es : List (Nat × Nat), es.Pairwise (fun a b => a.2 ≤ b.1) →
      (es.flatMap chunkSlice).Nodup
  | [], _ => List.nodup_nil
  | e :: es, h => by
    rw [List.flatMap_cons, List.nodup_append]
    rcases List.pairwise_cons.mp h with ⟨hhead, htail⟩
    refine ⟨chunkSlice_nodup e, nodup_flatMap_of_pairwise es htail, ?_⟩
    intro x hx hx'
    rcases List.mem_flatMap.mp hx' with ⟨f, hf, hxf⟩
    have h1 := mem_chunkSlice hx
    have h2 := mem_chunkSlice hxf
    have h3 := hhead f hf
    omega

/-- C1 (amended): the concatenation loop of `process_audio_file` has no
merge step and its margin is a fixed 100 ms (not a configured `marginMs`),
so overlapping expanded chunks duplicate audio (counterexample above); but
whenever consecutive detected chunks are separated by at least twice the
margin — which `detect_nonsilent` guarantees whenever `min_silence_duration`
is at least 200 ms, the default being 2000 ms — the expanded chunks stay
disjoint and no source position appears twice in the output. -/
theorem processedTimeline_nodup (len : Nat) (chunks : List (Nat × Nat))
    (hgap : chunks.Pairwise (fun a b => a.2 + 2 * margin ≤ b.1)) :
    (processedTimeline len chunks).Nodup := by
  unfold processedTimeline
  apply nodup_flatMap_of_pairwise
  rw [List.pairwise_map]
  refine hgap.imp ?_
  intro a b hab
  simp only [expandChunk, margin] at *
  omega

/-- C1 witness: two chunks separated by a 2200 ms silence (as under the
default 2000 ms `min_silence_duration`) produce a duplication-free output. -/
theorem processedTimeline_nodup_witness :
    ([(100, 200), (2400, 2600)] : List (Nat × Nat)).Pairwise
        (fun a b => a.2 + 2 * margin ≤ b.1) ∧
      (processedTimeline 3000 [(100, 200), (2400, 2600)]).Nodup :=
  ⟨by decide, processedTimeline_nodup 3000 _ (by decide)⟩

end AudioProcessor

namespace SyncDatabase

theorem latestStep_isSome (acc : Option HistRow) (r : HistRow) :
    (latestStep acc r).isSome = true := by
  unfold latestStep
  cases acc with
  | none => rfl
  | some a =>
    dsimp only
    split <;> rfl

theorem record_file_sync_history (db : DB) (sid : String) (fi : FileInfo)
    (now : Nat) :
    (record_file_sync db sid fi now).history = db.history ++
      [{ session_id := sid, file_path := fi.file_path,
         file_name := fi.file_name, file_size := fi.file_size,
         file_hash := fi.file_hash, gdrive_file_id := fi.gdrive_file_id,
         gdrive_folder_id := fi.gdrive_folder_id,
         sync_status := fi.sync_status, sync_time := now,
         error_message := fi.error_message,
         retry_count := fi.retry_count }] := by
  unfold record_file_sync
  dsimp only
  split <;> rfl

theorem record_file_sync_tracking_success (db : DB) (sid : String)
    (fi : FileInfo) (now : Nat) (h : fi.sync_status = "success") :
    (record_file_sync db sid fi now).tracking =
      update_file_tracking db.tracking fi now := by
  unfold record_file_sync
  simp [h]

theorem update_file_tracking_any (tracking : List TrackRow) (fi : FileInfo)
    (now : Nat) :
    (update_file_tracking tracking fi now).any
      (fun t => t.file_path = fi.file_path && t.file_hash = fi.file_hash)
      = true := by
  unfold update_file_tracking
  split
  · rename_i hany
    rw [List.any_eq_true] at hany
    rcases hany with ⟨t, ht, hp⟩
    have hp' : t.file_path = fi.file_path := by simpa using hp
    simp only [List.any_map]
    rw [List.any_eq_true]
    refine ⟨t, ht, ?_⟩
    simp [Function.comp, hp']
  · simp [List.any_append]

/-- C2: after one successful `record_file_sync` for a file with fingerprint
`fi.file_hash`, a `check_file_exists` call for that fingerprint on the same
folder scope finds a match, and `get_files_to_sync` never selects a
candidate with the same path, the unchanged fingerprint and no force flag. -/
theorem record_success_dedup (db : DB) (sid : String) (fi : FileInfo)
    (now : Nat) (hsucc : fi.sync_status = "success") :
    ((check_file_exists (record_file_sync db sid fi now) fi.file_hash
        fi.gdrive_folder_id).isSome = true) ∧
      ∀ c : Candidate, c.path = fi.file_path → c.hash = some fi.file_hash →
        c.force_sync = false → ∀ usb cands,
          c ∉ get_files_to_sync (record_file_sync db sid fi now) usb cands := by
  constructor
  · unfold check_file_exists
    rw [record_file_sync_history, List.filter_append]
    have hmatch : historyMatch fi.file_hash fi.gdrive_folder_id
        { session_id := sid, file_path := fi.file_path,
          file_name := fi.file_name, file_size := fi.file_size,
          file_hash := fi.file_hash, gdrive_file_id := fi.gdrive_file_id,
          gdrive_folder_id := fi.gdrive_folder_id,
          sync_status := fi.sync_status, sync_time := now,
          error_message := fi.error_message,
          retry_count := fi.retry_count } = true := by
      unfold historyMatch
      cases hf : fi.gdrive_folder_id with
      | none => simp [hsucc]
      | some f =>
        by_cases he : f = "" <;> simp [hsucc, hf, he]
    rw [List.filter_cons, hmatch]
    rw [latestRow, List.foldl_append]
    exact latestStep_isSome _ _
  · intro c hpath hhash hforce usb cands hmem
    have hany : (record_file_sync db sid fi now).tracking.any
        (fun t => t.file_path = c.path && t.file_hash = fi.file_hash)
        = true := by
      rw [record_file_sync_tracking_success db sid fi now hsucc, hpath]
      exact update_file_tracking_any db.tracking fi now
    have hneed : needSync (record_file_sync db sid fi now) c = false := by
      unfold needSync
      rw [hhash]
      dsimp only
      rw [hany]
      simpa using hforce
    rw [get_files_to_sync, List.mem_filter, hneed] at hmem
    exact Bool.false_ne_true hmem.2

/-- C2 witness: the dedup theorem applied to a concrete successful record
into an empty database. -/
theorem record_success_dedup_witness :
    (FileInfo.sync_status
        ⟨"/u/a.mp3", "a.mp3", 10, "HF", some "gid", some "fold", "success",
          none, 0, some 3⟩ = "success") ∧
      ((check_file_exists
          (record_file_sync ⟨[], [], []⟩ "s1"
            ⟨"/u/a.mp3", "a.mp3", 10, "HF", some "gid", some "fold", "success",
              none, 0, some 3⟩ 42) "HF" (some "fold")).isSome = true) ∧
      ∀ c : Candidate, c.path = "/u/a.mp3" → c.hash = some "HF" →
        c.force_sync = false → ∀ usb cands,
          c ∉ get_files_to_sync
            (record_file_sync ⟨[], [], []⟩ "s1"
              ⟨"/u/a.mp3", "a.mp3", 10, "HF", some "gid", some "fold",
                "success", none, 0, some 3⟩ 42) usb cands :=
  ⟨rfl,
    (record_success_dedup ⟨[], [], []⟩ "s1"
      ⟨"/u/a.mp3", "a.mp3", 10, "HF", some "gid", some "fold", "success",
        none, 0, some 3⟩ 42 rfl).1,
    (record_success_dedup ⟨[], [], []⟩ "s1"
      ⟨"/u/a.mp3", "a.mp3", 10, "HF", some "gid", some "fold", "success",
        none, 0, some 3⟩ 42 rfl).2⟩

end SyncDatabase

namespace SyncDatabase

/-- C4: with the UNIQUE constraint on `file_tracking.file_path` in force
(no two tracking rows share a path), the selection test of
`get_files_to_sync` agrees exactly with the spec's description: a candidate
is in the result iff it is among the scanned files and either no tracking
entry exists for its path, or the tracked entry's fingerprint differs, or
it carries the force flag; a candidate without a computed fingerprint is
always selected. -/
theorem get_files_to_sync_matches_spec (db : DB)
    (hU : (db.tracking.map (fun t => t.file_path)).Nodup) :
    (∀ c : Candidate, needSync db c = true ↔ needSyncSpec db c) ∧
      ∀ (usb : String) (files : List Candidate) (c : Candidate),
        c ∈ get_files_to_sync db usb files ↔ c ∈ files ∧ needSyncSpec db c := by
  have key : ∀ c : Candidate, needSync db c = true ↔ needSyncSpec db c := by
    intro c
    unfold needSync needSyncSpec
    cases hh : c.hash with
    | none => simp
    | some h =>
      by_cases hany : db.tracking.any
          (fun t => t.file_path = c.path && t.file_hash = h) = true
      · rw [List.any_eq_true] at hany
        rcases hany with ⟨t, ht, htp⟩
        rw [Bool.and_eq_true] at htp
        have htp1 : t.file_path = c.path := by simpa using htp.1
        have htp2 : t.file_hash = h := by simpa using htp.2
        have hcond : db.tracking.any
            (fun t => t.file_path = c.path && t.file_hash = h) = true :=
          List.any_eq_true.mpr ⟨t, ht, by simp [htp1, htp2]⟩
        simp only [hcond, Bool.not_true, Bool.false_eq_true, if_false]
        constructor
        · intro hforce
          exact Or.inr (Or.inr (Or.inr hforce))
        · rintro (h1 | h2 | h3 | h4)
          · exact absurd h1 (by simp)
          · exact absurd htp1 (h2 t ht)
          · rcases h3 with ⟨u, hu, hup, huh⟩
            have : u = t :=
              List.inj_on_of_nodup_map hU hu ht (hup.trans htp1.symm)
            exact absurd (by rw [this, htp2]) huh
          · exact h4
      · rw [Bool.not_eq_true] at hany
        have hcond : (!(db.tracking.any
            (fun t => t.file_path = c.path && t.file_hash = h))) = true := by
          rw [hany]
          rfl
        dsimp only
        rw [if_pos hcond]
        refine ⟨fun _ => ?_, fun _ => rfl⟩
        by_cases hp : ∃ t ∈ db.tracking, t.file_path = c.path
        · rcases hp with ⟨t, ht, hpath⟩
          refine Or.inr (Or.inr (Or.inl ⟨t, ht, hpath, ?_⟩))
          intro heq
          rw [Option.some_inj] at heq
          exact absurd (List.any_eq_true.mpr ⟨t, ht,
              show (decide (t.file_path = c.path)
                  && decide (t.file_hash = h)) = true by simp [hpath, heq]⟩)
            (by rw [hany]; simp)
        · push_neg at hp
          exact Or.inr (Or.inl hp)
  refine ⟨key, ?_⟩
  intro usb files c
  rw [get_files_to_sync, List.mem_filter, key c]

/-- C4 witness: the selection characterization applied to a database whose
tracking table holds one entry. -/
theorem get_files_to_sync_matches_spec_witness :
    ((([⟨"/a", "n", 1, "h1", 0, 0, none, 1, 0⟩] : List TrackRow).map
        (fun t => t.file_path)).Nodup) ∧
      ((∀ c : Candidate,
          needSync ⟨[], [], [⟨"/a", "n", 1, "h1", 0, 0, none, 1, 0⟩]⟩ c = true
            ↔ needSyncSpec ⟨[], [], [⟨"/a", "n", 1, "h1", 0, 0, none, 1, 0⟩]⟩ c) ∧
        ∀ (usb : String) (files : List Candidate) (c : Candidate),
          c ∈ get_files_to_sync
              ⟨[], [], [⟨"/a", "n", 1, "h1", 0, 0, none, 1, 0⟩]⟩ usb files ↔
            c ∈ files ∧
              needSyncSpec ⟨[], [], [⟨"/a", "n", 1, "h1", 0, 0, none, 1, 0⟩]⟩ c) :=
  ⟨by decide,
    get_files_to_sync_matches_spec
      ⟨[], [], [⟨"/a", "n", 1, "h1", 0, 0, none, 1, 0⟩]⟩ (by decide)⟩

end SyncDatabase

namespace GoogleDriveSync

/-- C5: evaluation of `upload_file` at a persistently failing task.  With
`retry_attempts = 3` and every transfer attempt raising, the recursive
retry path attempts the upload once per remaining recursion level (here a
budget of 9 gives 10 attempts), each attempt writing its own `failed`
ledger row, before finally returning `None`: the `for attempt in range(1,
retry_attempts)` bound never takes effect because the recursive call
swallows its own exceptions, so the retry count is governed by the
interpreter recursion limit, not by `retry_attempts`. -/
theorem upload_file_retry_unbounded :
    (((upload_file ⟨3, 1000000, fun _ _ => false, fun _ _ => none⟩ "s1"
          ⟨"/x/a.mp3", "a.mp3", 10, "h5", 0, true⟩ "root" 50 9
          ⟨[], [], []⟩ 0).1).history.length = 10 ∧ 3 < 10) ∧
      (((upload_file ⟨3, 1000000, fun _ _ => false, fun _ _ => none⟩ "s1"
          ⟨"/x/a.mp3", "a.mp3", 10, "h5", 0, true⟩ "root" 50 9
          ⟨[], [], []⟩ 0).1).history.all
        (fun r => r.sync_status = "failed") = true) ∧
      (upload_file ⟨3, 1000000, fun _ _ => false, fun _ _ => none⟩ "s1"
          ⟨"/x/a.mp3", "a.mp3", 10, "h5", 0, true⟩ "root" 50 9
          ⟨[], [], []⟩ 0).2 = none := by
  refine ⟨⟨?_, ?_⟩, ?_, ?_⟩ <;> decide

/-- C3 counterexample: for an input batch holding one existing file whose
path is tracked under its unchanged fingerprint, `upload_files_parallel`
drops the path in the differential-sync step: the call returns an empty
result map and writes no ledger row, so this input path produces no
terminal outcome in the return value or in the ledger — and more generally
the returned dict only ever maps successfully uploaded paths. -/
theorem upload_files_parallel_counterexample :
    (upload_files_parallel ⟨3, 1000000, fun _ _ => false, fun _ _ => none⟩
        ⟨[], [], [⟨"/x/a.mp3", "a.mp3", 10, "h5", 0, 1, none, 1, 1⟩]⟩ "s1"
        [⟨"/x/a.mp3", "a.mp3", 10, "h5", 0, true⟩] "root" 9 50).2 = [] ∧
      ((upload_files_parallel ⟨3, 1000000, fun _ _ => false, fun _ _ => none⟩
          ⟨[], [], [⟨"/x/a.mp3", "a.mp3", 10, "h5", 0, 1, none, 1, 1⟩]⟩ "s1"
          [⟨"/x/a.mp3", "a.mp3", 10, "h5", 0, true⟩] "root" 9 50).1).history
        = [] := by
  refine ⟨?_, ?_⟩ <;> decide

end GoogleDriveSync

namespace GoogleDriveSync

theorem record_sync_result_history (db : SyncDatabase.DB) (sid : String)
    (f : DFile) (fid : Option String) (folder status : String)
    (err : Option String) (now : Nat) :
    (record_sync_result db sid f fid folder status err now).history =
      db.history ++
        [{ session_id := sid, file_path := f.path, file_name := f.name,
           file_size := f.size, file_hash := f.hash, gdrive_file_id := fid,
           gdrive_folder_id := some folder, sync_status := status,
           sync_time := now, error_message := err, retry_count := 0 }] :=
  SyncDatabase.record_file_sync_history db sid _ now

theorem record_sync_result_row (db : SyncDatabase.DB) (sid : String)
    (f : DFile) (fid : Option String) (folder status : String)
    (err : Option String) (now : Nat) :
    ∃ l, (record_sync_result db sid f fid folder status err now).history
        = db.history ++ l ∧ ∃ r ∈ l, r.file_path = f.path :=
  ⟨_, record_sync_result_history db sid f fid folder status err now,
    _, List.mem_singleton_self _, rfl⟩

theorem upload_file_history (env : UploadEnv) (sid : String) (f : DFile)
    (parent : String) (now : Nat) :
    ∀ (fuel : Nat) (db : SyncDatabase.DB) (attempt : Nat),
      ∃ l, ((upload_file env sid f parent now fuel db attempt).1).history
          = db.history ++ l ∧ ∃ r ∈ l, r.file_path = f.path := by
  intro fuel
  induction fuel with
  | zero =>
    intro db attempt
    rw [upload_file]
    split
    · exact record_sync_result_row db sid f none parent "failed" _ now
    · split
      · exact record_sync_result_row db sid f none parent "skipped" _ now
      · split
        · exact record_sync_result_row db sid f _ parent "success" none now
        · exact record_sync_result_row db sid f none parent "failed" _ now
  | succ n ih =>
    intro db attempt
    rw [upload_file]
    split
    · exact record_sync_result_row db sid f none parent "failed" _ now
    · split
      · exact record_sync_result_row db sid f none parent "skipped" _ now
      · split
        · exact record_sync_result_row db sid f _ parent "success" none now
        · dsimp only
          split
          · exact record_sync_result_row db sid f none parent "failed" _ now
          · obtain ⟨l, hl, r, hr, hrp⟩ := ih (record_sync_result db sid f none
                parent "failed" (some "upload error") now) (attempt + 1)
            rw [record_sync_result_history, List.append_assoc] at hl
            exact ⟨_, hl,
              _, List.mem_append_left _ (List.mem_singleton_self _), rfl⟩

theorem upload_file_success_row (env : UploadEnv) (sid : String) (f : DFile)
    (parent : String) (now : Nat) :
    ∀ (fuel : Nat) (db : SyncDatabase.DB) (attempt : Nat) (fid : String),
      (upload_file env sid f parent now fuel db attempt).2 = some fid →
      ∃ r ∈ ((upload_file env sid f parent now fuel db attempt).1).history,
        r.file_path = f.path ∧ r.sync_status = "success" ∧
          r.gdrive_file_id = some fid := by
  intro fuel
  induction fuel with
  | zero =>
    intro db attempt fid h
    rw [upload_file] at h ⊢
    by_cases h1 : f.size > env.max_file_size
    · rw [if_pos h1] at h
      simp at h
    · rw [if_neg h1] at h ⊢
      by_cases h2 : drive_check_file_exists env db f.name parent f.hash = true
      · rw [if_pos h2] at h
        simp at h
      · rw [if_neg h2] at h ⊢
        cases hu : env.uploadResult f.path attempt with
        | some fid' =>
          simp only [hu] at h ⊢
          obtain rfl : fid' = fid := by simpa using h
          rw [record_sync_result_history]
          exact ⟨_, List.mem_append_right _ (List.mem_singleton_self _),
            rfl, rfl, rfl⟩
        | none =>
          simp only [hu] at h
          simp at h
  | succ n ih =>
    intro db attempt fid h
    rw [upload_file] at h ⊢
    by_cases h1 : f.size > env.max_file_size
    · rw [if_pos h1] at h
      simp at h
    · rw [if_neg h1] at h ⊢
      by_cases h2 : drive_check_file_exists env db f.name parent f.hash = true
      · rw [if_pos h2] at h
        simp at h
      · rw [if_neg h2] at h ⊢
        cases hu : env.uploadResult f.path attempt with
        | some fid' =>
          simp only [hu] at h ⊢
          obtain rfl : fid' = fid := by simpa using h
          rw [record_sync_result_history]
          exact ⟨_, List.mem_append_right _ (List.mem_singleton_self _),
            rfl, rfl, rfl⟩
        | none =>
          simp only [hu] at h ⊢
          by_cases h3 : env.retry_attempts ≤ 1
          · rw [if_pos h3] at h
            simp at h
          · rw [if_neg h3] at h ⊢
            exact ih _ (attempt + 1) fid h

theorem runUploads_spec (env : UploadEnv) (sid parent : String)
    (now fuel : Nat) :
    ∀ (fs : List DFile) (db : SyncDatabase.DB),
      (((runUploads env sid parent now fuel db fs).2.map Prod.fst).Sublist
          (fs.map (fun f => f.path))) ∧
        (∃ l, ((runUploads env sid parent now fuel db fs).1).history
            = db.history ++ l) ∧
        (∀ f ∈ fs,
          ∃ r ∈ ((runUploads env sid parent now fuel db fs).1).history,
            r.file_path = f.path) ∧
        (∀ p fid, (p, fid) ∈ (runUploads env sid parent now fuel db fs).2 →
          ∃ r ∈ ((runUploads env sid parent now fuel db fs).1).history,
            r.file_path = p ∧ r.sync_status = "success" ∧
              r.gdrive_file_id = some fid) := by
  intro fs
  induction fs with
  | nil =>
    intro db
    refine ⟨by simp [runUploads], ⟨[], by simp [runUploads]⟩, ?_, ?_⟩
    · intro f hf
      simp at hf
    · intro p fid hp
      simp [runUploads] at hp
  | cons f fs ih =>
    intro db
    rw [runUploads]
    dsimp only
    obtain ⟨l1, h1, r1, hr1m, hr1p⟩ :=
      upload_file_history env sid f parent now fuel db 0
    obtain ⟨ihA, ⟨l2, ihB⟩, ihC, ihD⟩ :=
      ih (upload_file env sid f parent now fuel db 0).1
    refine ⟨?_, ?_, ?_, ?_⟩
    · rw [List.map_append, List.map_cons]
      cases hu : (upload_file env sid f parent now fuel db 0).2 with
      | some fid => exact List.Sublist.cons₂ f.path ihA
      | none => exact List.Sublist.cons f.path ihA
    · exact ⟨l1 ++ l2, by rw [ihB, h1, List.append_assoc]⟩
    · intro g hg
      rcases List.mem_cons.mp hg with rfl | hg
      · refine ⟨r1, ?_, hr1p⟩
        rw [ihB, h1]
        exact List.mem_append_left _ (List.mem_append_right _ hr1m)
      · exact ihC g hg
    · intro p fid hp
      rcases List.mem_append.mp hp with hp | hp
      · cases hu : (upload_file env sid f parent now fuel db 0).2 with
        | some fid' =>
          rw [hu] at hp
          have hpf := List.mem_singleton.mp hp
          injection hpf with hp1 hp2
          subst hp1
          subst hp2
          obtain ⟨r, hrm, hrp, hrs, hri⟩ :=
            upload_file_success_row env sid f parent now fuel db 0 fid hu
          refine ⟨r, ?_, hrp, hrs, hri⟩
          rw [ihB]
          exact List.mem_append_left _ hrm
        | none =>
          rw [hu] at hp
          simp at hp
      · exact ihD p fid hp

/-- C3 (amended): `upload_files_parallel` processes every dispatched task
(the existing files surviving the differential-sync selection), writes at
least one ledger row per dispatched path, and its returned map contains
only successes: the returned keys form a subsequence of the dispatched
paths (so no path appears twice), and every returned pair is backed by a
`success` ledger row carrying the returned remote file id.  Failed and
skipped tasks are recorded in the ledger but absent from the returned
value, and paths dropped by the selection get no outcome at all (see the
counterexample). -/
theorem upload_files_parallel_amended (env : UploadEnv) (db : SyncDatabase.DB)
    (sid : String) (files : List DFile) (parent : String) (fuel now : Nat) :
    (((upload_files_parallel env db sid files parent fuel now).2.map
          Prod.fst).Sublist ((selectedFiles db files).map (fun f => f.path))) ∧
      (∀ f ∈ selectedFiles db files,
        ∃ r ∈ ((upload_files_parallel env db sid files parent fuel now).1).history,
          r.file_path = f.path) ∧
      ∀ p fid,
        (p, fid) ∈ (upload_files_parallel env db sid files parent fuel now).2 →
        ∃ r ∈ ((upload_files_parallel env db sid files parent fuel now).1).history,
          r.file_path = p ∧ r.sync_status = "success" ∧
            r.gdrive_file_id = some fid := by
  obtain ⟨hA, _, hC, hD⟩ :=
    runUploads_spec env sid parent now fuel (selectedFiles db files) db
  exact ⟨hA, hC, hD⟩

end GoogleDriveSync

namespace LocalStorage

theorem lookup_removeFile_self (t : Tree) (p : RelPath) :
    lookupFile (removeFile t p) p = none := by
  induction t with
  | nil => rfl
  | cons e t ih =>
    by_cases h : e.1 = p <;> simp [removeFile, lookupFile, h, ih]

theorem lookup_removeFile_ne (t : Tree) (p q : RelPath) (h : q ≠ p) :
    lookupFile (removeFile t p) q = lookupFile t q := by
  induction t with
  | nil => rfl
  | cons e t ih =>
    by_cases he : e.1 = p
    · simp [removeFile, lookupFile, he, ih, Ne.symm h]
    · simp [removeFile, lookupFile, he, ih]

theorem copyOne_eq_skip (env : CopyEnv) (dest : Tree) (s : RelPath × Content)
    (d₀ : Content) (hd : lookupFile dest s.1 = some d₀)
    (hlen : d₀.length = s.2.length) :
    copyOne env dest s = (dest, some s.1) := by
  unfold copyOne
  rw [hd]
  simp [hlen]

theorem copyOne_eq_ok (env : CopyEnv) (dest : Tree) (s : RelPath × Content)
    (henv : env.verify_cfg = true)
    (hsk : ∀ d₀, lookupFile dest s.1 = some d₀ → d₀.length ≠ s.2.length)
    (hh : env.hash s.2 = env.hash (env.write s.1 s.2)) :
    copyOne env dest s =
      (setFile dest s.1 (env.write s.1 s.2), some s.1) := by
  unfold copyOne
  cases hl : lookupFile dest s.1 with
  | none => simp [henv, hh]
  | some d₀ => simp [henv, hh, hsk d₀ hl]

theorem copyOne_eq_bad (env : CopyEnv) (dest : Tree) (s : RelPath × Content)
    (henv : env.verify_cfg = true)
    (hsk : ∀ d₀, lookupFile dest s.1 = some d₀ → d₀.length ≠ s.2.length)
    (hh : env.hash s.2 ≠ env.hash (env.write s.1 s.2)) :
    copyOne env dest s =
      (removeFile (setFile dest s.1 (env.write s.1 s.2)) s.1, none) := by
  unfold copyOne
  cases hl : lookupFile dest s.1 with
  | none => simp [henv, hh]
  | some d₀ => simp [henv, hh, hsk d₀ hl]

theorem copyOne_fst_lookup_ne (env : CopyEnv) (dest : Tree)
    (s : RelPath × Content) (q : RelPath) (h : q ≠ s.1) :
    lookupFile (copyOne env dest s).1 q = lookupFile dest q := by
  unfold copyOne
  dsimp only
  split
  · rfl
  · split
    · split
      · exact lookup_setFile_ne _ _ _ _ h
      · rw [lookup_removeFile_ne _ _ _ h, lookup_setFile_ne _ _ _ _ h]
    · exact lookup_setFile_ne _ _ _ _ h

theorem copyOne_snd_eq (env : CopyEnv) (dest : Tree) (s : RelPath × Content)
    (p : RelPath) (h : (copyOne env dest s).2 = some p) : p = s.1 := by
  unfold copyOne at h
  dsimp only at h
  split at h
  · exact (Option.some_inj.mp h).symm
  · split at h
    · split at h
      · exact (Option.some_inj.mp h).symm
      · simp at h
    · exact (Option.some_inj.mp h).symm

theorem copy_from_usb_lookup_notin (env : CopyEnv) :
    ∀ (ss : List (RelPath × Content)) (dest : Tree) (p : RelPath),
      p ∉ ss.map Prod.fst →
      lookupFile (copy_from_usb env dest ss).1 p = lookupFile dest p := by
  intro ss
  induction ss with
  | nil =>
    intro dest p _
    rfl
  | cons s ss ih =>
    intro dest p h
    rw [List.map_cons, List.mem_cons] at h
    push_neg at h
    rw [copy_from_usb]
    dsimp only
    rw [ih _ p h.2, copyOne_fst_lookup_ne env dest s p h.1]

theorem copied_mem_paths (env : CopyEnv) :
    ∀ (ss : List (RelPath × Content)) (dest : Tree) (p : RelPath),
      p ∈ (copy_from_usb env dest ss).2 → p ∈ ss.map Prod.fst := by
  intro ss
  induction ss with
  | nil =>
    intro dest p h
    simp [copy_from_usb] at h
  | cons s ss ih =>
    intro dest p h
    rw [copy_from_usb] at h
    dsimp only at h
    rw [List.map_cons]
    rcases List.mem_append.mp h with h | h
    · cases hq : (copyOne env dest s).2 with
      | some q =>
        rw [hq] at h
        simp only [copiedEntry] at h
        have hpq := List.mem_singleton.mp h
        subst hpq
        rw [copyOne_snd_eq env dest s _ hq]
        exact List.mem_cons_self _ _
      | none =>
        rw [hq] at h
        simp [copiedEntry] at h
    · exact List.mem_cons_of_mem _ (ih _ p h)

theorem mem_copiedEntry {o : Option RelPath} {p : RelPath}
    (h : p ∈ copiedEntry o) : o = some p := by
  cases o with
  | some q =>
    simp only [copiedEntry] at h
    rw [List.mem_singleton.mp h]
  | none => simp [copiedEntry] at h

/-- C7 counterexample: a destination that already holds different content
of the same byte size as the source is skipped by the size pre-check and
reported as copied without any fingerprint comparison: the file is in the
returned staged list although the source and destination fingerprints
differ (here the fingerprint of `[1, 2]` is 3 and that of the surviving
destination `[3, 4]` is 7), and the mismatching destination is not
deleted. -/
theorem copy_from_usb_counterexample :
    ((copy_from_usb
        ⟨true, fun c => c.foldl (· + ·) 0, fun _ c => c⟩
        [(⟨[], "a", ".mp3"⟩, [3, 4])]
        [(⟨[], "a", ".mp3"⟩, [1, 2])]).2 = [⟨[], "a", ".mp3"⟩]) ∧
      (lookupFile (copy_from_usb
          ⟨true, fun c => c.foldl (· + ·) 0, fun _ c => c⟩
          [(⟨[], "a", ".mp3"⟩, [3, 4])]
          [(⟨[], "a", ".mp3"⟩, [1, 2])]).1 ⟨[], "a", ".mp3"⟩
        = some [3, 4]) ∧
      ¬ (([1, 2] : List Nat).foldl (· + ·) 0
          = ([3, 4] : List Nat).foldl (· + ·) 0) := by
  refine ⟨?_, ?_, ?_⟩ <;> decide

/-- C7 (amended): with `verify_copy` enabled and pairwise-distinct source
paths, every file in the returned staged list either has matching source
and destination fingerprints, or was skipped by the identical-byte-size
pre-check, which reports a pre-existing destination as copied without
verifying it (the refuted part); and a file whose fresh copy fails
verification is deleted from the destination and left out of the result. -/
theorem copy_from_usb_verified (env : CopyEnv) :
    ∀ (srcs : List (RelPath × Content)) (dest : Tree) (p : RelPath)
      (c : Content), env.verify_cfg = true → (srcs.map Prod.fst).Nodup →
      (p, c) ∈ srcs →
      (p ∈ (copy_from_usb env dest srcs).2 →
        ∃ d, lookupFile (copy_from_usb env dest srcs).1 p = some d ∧
          (env.hash c = env.hash d ∨
            ∃ d₀, lookupFile dest p = some d₀ ∧ d₀.length = c.length ∧
              d = d₀)) ∧
      ((∀ d₀, lookupFile dest p = some d₀ → d₀.length ≠ c.length) →
        env.hash c ≠ env.hash (env.write p c) →
        p ∉ (copy_from_usb env dest srcs).2 ∧
          lookupFile (copy_from_usb env dest srcs).1 p = none) := by
  intro srcs
  induction srcs with
  | nil =>
    intro dest p c _ _ hmem
    simp at hmem
  | cons s ss ih =>
    intro dest p c henv hnd hmem
    rw [List.map_cons] at hnd
    have hnd1 : s.1 ∉ ss.map Prod.fst := (List.nodup_cons.mp hnd).1
    have hnd2 : (ss.map Prod.fst).Nodup := (List.nodup_cons.mp hnd).2
    rcases List.mem_cons.mp hmem with heq | hmem'
    · obtain rfl : s = (p, c) := heq.symm
      have hp1 : p ∉ ss.map Prod.fst := hnd1
      by_cases hsz : ∃ d₀, lookupFile dest p = some d₀ ∧ d₀.length = c.length
      · rcases hsz with ⟨d₀, hd₀, hlen⟩
        rw [copy_from_usb]
        dsimp only
        rw [copyOne_eq_skip env dest (p, c) d₀ hd₀ hlen]
        constructor
        · intro _
          refine ⟨d₀, ?_, Or.inr ⟨d₀, hd₀, hlen, rfl⟩⟩
          rw [copy_from_usb_lookup_notin env ss dest p hp1, hd₀]
        · intro hsk _
          exact absurd hlen (hsk d₀ hd₀)
      · push_neg at hsz
        by_cases hh : env.hash c = env.hash (env.write p c)
        · rw [copy_from_usb]
          dsimp only
          rw [copyOne_eq_ok env dest (p, c) henv hsz hh]
          constructor
          · intro _
            refine ⟨env.write p c, ?_, Or.inl hh⟩
            rw [copy_from_usb_lookup_notin env ss _ p hp1,
              lookup_setFile_self]
          · intro _ hmis
            exact absurd hh hmis
        · rw [copy_from_usb]
          dsimp only
          rw [copyOne_eq_bad env dest (p, c) henv hsz hh]
          have hnotin : p ∉ copiedEntry
              ((removeFile (setFile dest p (env.write p c)) p,
                (none : Option RelPath)).2) ++
                (copy_from_usb env (removeFile (setFile dest p
                  (env.write p c)) p) ss).2 := by
            intro hcop
            rcases List.mem_append.mp hcop with h | h
            · simp [copiedEntry] at h
            · exact absurd (copied_mem_paths env ss _ p h) hp1
          constructor
          · intro hcop
            exact absurd hcop hnotin
          · intro _ _
            refine ⟨hnotin, ?_⟩
            rw [copy_from_usb_lookup_notin env ss _ p hp1,
              lookup_removeFile_self]
    · have hpss : p ∈ ss.map Prod.fst := by
        rw [List.mem_map]
        exact ⟨(p, c), hmem', rfl⟩
      have hnps : p ≠ s.1 := fun h => hnd1 (h ▸ hpss)
      rw [copy_from_usb]
      dsimp only
      obtain ⟨ih1, ih2⟩ := ih (copyOne env dest s).1 p c henv hnd2 hmem'
      have hlk := copyOne_fst_lookup_ne env dest s p hnps
      have hhead : p ∉ copiedEntry (copyOne env dest s).2 := fun h =>
        hnps (copyOne_snd_eq env dest s p (mem_copiedEntry h))
      constructor
      · intro hcop
        have hcop' : p ∈ (copy_from_usb env (copyOne env dest s).1 ss).2 := by
          rcases List.mem_append.mp hcop with h | h
          · exact absurd h hhead
          · exact h
        obtain ⟨d, hd, hor⟩ := ih1 hcop'
        refine ⟨d, hd, ?_⟩
        rcases hor with h | ⟨d₀, hd₀, hlen, hdd⟩
        · exact Or.inl h
        · rw [hlk] at hd₀
          exact Or.inr ⟨d₀, hd₀, hlen, hdd⟩
      · intro hsk hmis
        have hsk' : ∀ d₀,
            lookupFile (copyOne env dest s).1 p = some d₀ →
              d₀.length ≠ c.length := by
          intro d₀ hd₀
          rw [hlk] at hd₀
          exact hsk d₀ hd₀
        obtain ⟨hnc, hnone⟩ := ih2 hsk' hmis
        refine ⟨?_, hnone⟩
        intro hcop
        rcases List.mem_append.mp hcop with h | h
        · exact absurd h hhead
        · exact hnc h

/-- C7 witness: the verified-copy theorem applied to a fresh copy of one
file into an empty destination with a faithful write. -/
theorem copy_from_usb_verified_witness :
    (CopyEnv.verify_cfg ⟨true, fun c => c.foldl (· + ·) 0, fun _ c => c⟩
        = true) ∧
      (([(⟨[], "a", ".mp3"⟩, [1, 2])].map
        (Prod.fst (α := RelPath) (β := Content))).Nodup) ∧
      ((⟨[], "a", ".mp3"⟩, [1, 2]) ∈
        ([(⟨[], "a", ".mp3"⟩, [1, 2])] : List (RelPath × Content))) ∧
      ((⟨[], "a", ".mp3"⟩ : RelPath) ∈ (copy_from_usb
          ⟨true, fun c => c.foldl (· + ·) 0, fun _ c => c⟩ []
          [(⟨[], "a", ".mp3"⟩, [1, 2])]).2 →
        ∃ d, lookupFile (copy_from_usb
            ⟨true, fun c => c.foldl (· + ·) 0, fun _ c => c⟩ []
            [(⟨[], "a", ".mp3"⟩, [1, 2])]).1 ⟨[], "a", ".mp3"⟩ = some d ∧
          (([1, 2] : List Nat).foldl (· + ·) 0 = d.foldl (· + ·) 0 ∨
            ∃ d₀, lookupFile [] (⟨[], "a", ".mp3"⟩ : RelPath) = some d₀ ∧
              d₀.length = ([1, 2] : List Nat).length ∧ d = d₀)) :=
  ⟨rfl, by decide, by decide,
    (copy_from_usb_verified ⟨true, fun c => c.foldl (· + ·) 0, fun _ c => c⟩
      [(⟨[], "a", ".mp3"⟩, [1, 2])] [] ⟨[], "a", ".mp3"⟩ [1, 2]
      rfl (by decide) (by decide)).1⟩

end LocalStorage
